import Mathlib

/-!
Verification development for the session synchronization relay of the
Real-Time-Collaborative-Circuit-Editor repository.

The embedding covers `src/server/sessionManager.js` (session / user / role
registry) and `src/server/index.js` (WebSocket relay: connection registry,
document store, broadcast fan-out).

JavaScript `Map` objects are embedded as association lists with insertion
order: `mapGet` finds the first binding, `mapSet` replaces an existing
binding in place or appends, `mapDelete` removes the binding for a key.
All states constructed by the source keep keys unique, so removing every
binding of the key is observationally identical to `Map.prototype.delete`.

Nondeterministic inputs of the source (uuidv4 results, `Math.random`-based
invite codes, palette colors, `new Date()` timestamps) are passed to the
operations as explicit arguments: the source performs no collision check
on any of them except where modelled.
-/

namespace Circuit

/-- JS Map lookup: first binding of the key, if any. -/
def mapGet {κ α : Type} [DecidableEq κ] : List (κ × α) → κ → Option α
  | [], _ => none
  | (k, v) :: rest, key => if k = key then some v else mapGet rest key

/-- JS Map set: replace the first binding in place, else append at the end. -/
def mapSet {κ α : Type} [DecidableEq κ] : List (κ × α) → κ → α → List (κ × α)
  | [], key, v => [(key, v)]
  | (k, v') :: rest, key, v =>
      if k = key then (key, v) :: rest else (k, v') :: mapSet rest key v

/-- JS Map delete: remove the binding of the key (keys are unique in every
state the source constructs, so removing every binding of the key is
equivalent to `Map.prototype.delete`). -/
def mapDelete {κ α : Type} [DecidableEq κ] : List (κ × α) → κ → List (κ × α)
  | [], _ => []
  | (k, v) :: rest, key =>
      if k = key then mapDelete rest key else (k, v) :: mapDelete rest key

/-- JS string truthiness for an optional string argument:
`null`/`undefined` and the empty string are falsy. -/
def strTruthy : Option String → Bool
  | none => false
  | some s => s ≠ ""

/-- JS `a || b` for an optional string `a` with default `b`. -/
def jsOr (s : Option String) (d : String) : String :=
  match s with
  | none => d
  | some s => if s = "" then d else s

/-! ## sessionManager.js -/

/-- User record stored in `session.users`
(`{ id, name, role, color, joinedAt }`); roles are the strings
`"owner"`, `"editor"`, `"viewer"` as in the source. -/
structure UserRec where
  id : String
  name : String
  role : String
  color : String
  joinedAt : Nat
  deriving Repr, DecidableEq

/-- Session record
(`{ id, name, ownerId, inviteCode, createdAt, users }`). -/
structure Session where
  id : String
  name : String
  ownerId : String
  inviteCode : String
  createdAt : Nat
  users : List (String × UserRec)
  deriving Repr, DecidableEq

/-- Module-level mutable state of sessionManager.js:
`sessions` and the `userId -> sessionId` map `userSessions`. -/
structure RegistryState where
  sessions : List (String × Session)
  userSessions : List (String × String)
  deriving Repr, DecidableEq

/-- The empty module state at server start. -/
def initialRegistry : RegistryState :=
  { sessions := [], userSessions := [] }

/-- Return value of `createSession`. -/
structure CreateResult where
  sessionId : String
  userId : String
  inviteCode : String
  role : String
  deriving Repr, DecidableEq

/-- Return value of `joinSession`: `{ error }` or
`{ sessionId, userId, role, users }`. -/
inductive JoinResult
  | error (message : String)
  | ok (sessionId userId role : String) (users : List UserRec)
  deriving Repr, DecidableEq

/-- Return value of `updateUserRole`: `{ error }` or
`{ success: true, user }`. -/
inductive RoleUpdateResult
  | error (message : String)
  | success (user : UserRec)
  deriving Repr, DecidableEq

/-- createSession(ownerName): allocates the session with a single
`"owner"` user. The fresh uuids `sessionId`, `ownerId`, the random
`inviteCode` and `color`, and the timestamp `now` are the source's
nondeterministic choices, passed explicitly; the source checks
`inviteCode` against no existing code. -/
def createSession (st : RegistryState) (ownerName : Option String)
    (sessionId ownerId inviteCode color : String) (now : Nat) :
    RegistryState × CreateResult :=
  let owner : UserRec :=
    { id := ownerId, name := jsOr ownerName "Owner", role := "owner",
      color := color, joinedAt := now }
  let session : Session :=
    { id := sessionId, name := "Circuit Session", ownerId := ownerId,
      inviteCode := inviteCode, createdAt := now,
      users := mapSet [] ownerId owner }
  ({ sessions := mapSet st.sessions sessionId session,
     userSessions := mapSet st.userSessions ownerId sessionId },
   { sessionId := sessionId, userId := ownerId, inviteCode := inviteCode,
     role := "owner" })

/-- joinSession(sessionId, userName, role = "editor", inviteCode = null):
the invite code is checked only when truthy; the granted role is
`"viewer"` when the requested role is exactly `"viewer"` and `"editor"`
otherwise. `userId`, `color`, `now` are the fresh nondeterministic
choices. -/
def joinSession (st : RegistryState) (sessionId : String)
    (userName : Option String) (role : String) (inviteCode : Option String)
    (userId color : String) (now : Nat) : RegistryState × JoinResult :=
  match mapGet st.sessions sessionId with
  | none => (st, .error "Session not found")
  | some session =>
      let inviteFails : Bool :=
        match inviteCode with
        | none => false
        | some c => c ≠ "" && session.inviteCode ≠ c
      if inviteFails then (st, .error "Invalid invite code")
      else
        let validRole : String := if role = "viewer" then "viewer" else "editor"
        let user : UserRec :=
          { id := userId,
            name := jsOr userName ("User " ++ toString (session.users.length + 1)),
            role := validRole, color := color, joinedAt := now }
        let session' : Session :=
          { session with users := mapSet session.users userId user }
        ({ sessions := mapSet st.sessions sessionId session',
           userSessions := mapSet st.userSessions userId sessionId },
         .ok sessionId userId validRole (session'.users.map Prod.snd))

/-- Public summary returned by `getSession`. -/
structure SessionSummary where
  id : String
  name : String
  inviteCode : String
  createdAt : Nat
  users : List UserRec
  deriving Repr, DecidableEq

/-- getSession(sessionId). -/
def getSession (st : RegistryState) (sessionId : String) :
    Option SessionSummary :=
  match mapGet st.sessions sessionId with
  | none => none
  | some s =>
      some { id := s.id, name := s.name, inviteCode := s.inviteCode,
             createdAt := s.createdAt, users := s.users.map Prod.snd }

/-- getUser(sessionId, userId). -/
def getUser (st : RegistryState) (sessionId userId : String) :
    Option UserRec :=
  match mapGet st.sessions sessionId with
  | none => none
  | some s => mapGet s.users userId

/-- canEdit(sessionId, userId): true iff the user exists and has role
`"owner"` or `"editor"`. -/
def canEdit (st : RegistryState) (sessionId userId : String) : Bool :=
  match getUser st sessionId userId with
  | none => false
  | some u => u.role = "owner" || u.role = "editor"

/-- leaveSession(sessionId, userId): removes the user; deletes the
session record when its user map becomes empty. -/
def leaveSession (st : RegistryState) (sessionId userId : String) :
    RegistryState × Bool :=
  match mapGet st.sessions sessionId with
  | none => (st, false)
  | some session =>
      let session' : Session :=
        { session with users := mapDelete session.users userId }
      let userSessions' := mapDelete st.userSessions userId
      if session'.users.length = 0 then
        ({ sessions := mapDelete st.sessions sessionId,
           userSessions := userSessions' }, true)
      else
        ({ sessions := mapSet st.sessions sessionId session',
           userSessions := userSessions' }, true)

/-- updateUserRole(sessionId, targetUserId, newRole, requesterId). -/
def updateUserRole (st : RegistryState)
    (sessionId targetUserId newRole requesterId : String) :
    RegistryState × RoleUpdateResult :=
  match mapGet st.sessions sessionId with
  | none => (st, .error "Session not found")
  | some session =>
      match mapGet session.users requesterId with
      | none => (st, .error "Only owner can change roles")
      | some requester =>
          if requester.role ≠ "owner" then
            (st, .error "Only owner can change roles")
          else
            match mapGet session.users targetUserId with
            | none => (st, .error "User not found")
            | some target =>
                if target.role = "owner" then
                  (st, .error "Cannot change owner role")
                else
                  let target' : UserRec :=
                    { target with
                      role := if newRole = "viewer" then "viewer" else "editor" }
                  let session' : Session :=
                    { session with
                      users := mapSet session.users targetUserId target' }
                  ({ st with
                     sessions := mapSet st.sessions sessionId session' },
                   .success target')

/-- getSessionUsers(sessionId). -/
def getSessionUsers (st : RegistryState) (sessionId : String) :
    List UserRec :=
  match mapGet st.sessions sessionId with
  | none => []
  | some s => s.users.map Prod.snd

/-! ## index.js — relay server

The external CRDT engine (yjs) is out of scope per the spec: the relay
treats documents as opaque. A document is embedded as the sequence of
update payloads merged into it, so `Y.applyUpdate` appends and
`Y.encodeStateAsUpdate` hands back the whole sequence; a fresh `Y.Doc`
(after its empty `gates`/`wires`/`metadata` containers are initialized)
is the empty sequence. Transport handles (`ws` objects) are embedded as
numeric ids; `readyState` is kept per handle (1 = OPEN, as the source
compares). -/

/-- Opaque per-session document: the sequence of merged updates. -/
abbrev Doc := List (List Nat)

/-- Y.applyUpdate(doc, update): merge one more opaque update. -/
def applyUpdate (d : Doc) (update : List Nat) : Doc := d ++ [update]

/-- One element of a session's connection `Set`: the object
`{ ws, userId }` added at join. Each `add` creates a distinct object, so
the `Set` never deduplicates; the embedding is an insertion-ordered
list. -/
structure ConnEntry where
  ws : Nat
  userId : String
  deriving Repr, DecidableEq

/-- Per-socket closure variables `sessionId` / `userId` of the
connection handler (`null` before the first join message). -/
structure ConnVars where
  sessionId : Option String
  userId : Option String
  deriving Repr, DecidableEq

/-- Whole-server state: sessionManager module state, the `docs` map, the
`connections` map, each socket's closure variables, and each socket's
transport readyState. -/
structure ServerState where
  registry : RegistryState
  docs : List (String × Doc)
  connections : List (String × List ConnEntry)
  connVars : List (Nat × ConnVars)
  readyState : List (Nat × Nat)
  deriving Repr, DecidableEq

/-- Messages a client can send
(`{type:"join"}`, `{type:"sync"}`, `{type:"awareness"}`); awareness
state is opaque to the relay. -/
inductive ClientMsg
  | join (sessionId userId : String)
  | sync (update : List Nat)
  | awareness (state : String)
  deriving Repr, DecidableEq

/-- Frames the server sends to a client. -/
inductive OutMsg
  | errorMsg (message : String)
  | initMsg (state : Doc) (users : List UserRec) (role : String)
  | syncMsg (update : List Nat)
  | awarenessMsg (userId : String) (state : String)
  | userConnected (userId : String) (user : UserRec)
  | userDisconnected (userId : String)
  | userJoined (users : List UserRec)
  deriving Repr, DecidableEq

/-- getYDoc(sessionId): lazily create the per-session document. -/
def getYDoc (st : ServerState) (sessionId : String) : ServerState × Doc :=
  match mapGet st.docs sessionId with
  | some d => (st, d)
  | none => ({ st with docs := mapSet st.docs sessionId [] }, [])

/-- The readyState of a handle (a socket absent from the map is not
open). -/
def wsReady (st : ServerState) (ws : Nat) : Nat :=
  (mapGet st.readyState ws).getD 0

/-- broadcastToSession(sessionId, message, excludeWs = null): send the
frame to every entry of the session's connection set whose handle is not
the excluded one and whose transport is OPEN; the returned list is the
sequence of (handle, frame) sends. -/
def broadcastToSession (st : ServerState) (sessionId : String)
    (message : OutMsg) (excludeWs : Option Nat) : List (Nat × OutMsg) :=
  match mapGet st.connections sessionId with
  | none => []
  | some conns =>
      (conns.filter
        (fun c => excludeWs ≠ some c.ws && wsReady st c.ws = 1)).map
        (fun c => (c.ws, message))

/-- broadcastAwareness(sessionId, userId, awarenessState): fan the pair
to the session with no exclusion. -/
def broadcastAwareness (st : ServerState) (sessionId userId : String)
    (state : String) : List (Nat × OutMsg) :=
  broadcastToSession st sessionId (.awarenessMsg userId state) none

/-- Closure variables of a socket (both `null` before any join). -/
def getConnVars (st : ServerState) (ws : Nat) : ConnVars :=
  (mapGet st.connVars ws).getD { sessionId := none, userId := none }

/-- The `ws.on("message")` handler: returns the new server state and the
sequence of (handle, frame) sends it performs. In the `join` case the
closure variables are assigned before validation, so they stay set even
when the join is rejected; rejection also closes the transport
(`ws.close()`, readyState leaves OPEN). In the `sync` and `awareness`
cases with a socket that never joined, the source calls
`canEdit(null, null)` (false) resp. `connections.get(null)`
(undefined, no sends). -/
def handleMessage (st : ServerState) (ws : Nat) (msg : ClientMsg) :
    ServerState × List (Nat × OutMsg) :=
  let v := getConnVars st ws
  match msg with
  | .join sessionId userId =>
      let vars : ConnVars := { sessionId := some sessionId, userId := some userId }
      let st₁ : ServerState := { st with connVars := mapSet st.connVars ws vars }
      match getUser st₁.registry sessionId userId with
      | none =>
          ({ st₁ with readyState := mapSet st₁.readyState ws 2 },
           [(ws, .errorMsg "Invalid session or user")])
      | some user =>
          let conns := (mapGet st₁.connections sessionId).getD []
          let entry : ConnEntry := { ws := ws, userId := userId }
          let conns' := mapSet st₁.connections sessionId (conns ++ [entry])
          let st₂ : ServerState := { st₁ with connections := conns' }
          let st₃ := (getYDoc st₂ sessionId).1
          let doc := (getYDoc st₂ sessionId).2
          let initSend : Nat × OutMsg :=
            (ws, .initMsg doc (getSessionUsers st₃.registry sessionId) user.role)
          (st₃, initSend ::
            broadcastToSession st₃ sessionId
              (.userConnected userId user) (some ws))
  | .sync update =>
      match v.sessionId, v.userId with
      | some sid, some uid =>
          if canEdit st.registry sid uid then
            let st₁ := (getYDoc st sid).1
            let doc := (getYDoc st sid).2
            let st₂ : ServerState :=
              { st₁ with docs := mapSet st₁.docs sid (applyUpdate doc update) }
            (st₂, broadcastToSession st₂ sid (.syncMsg update) (some ws))
          else
            (st, [(ws, .errorMsg "Permission denied: viewers cannot edit")])
      | _, _ =>
          (st, [(ws, .errorMsg "Permission denied: viewers cannot edit")])
  | .awareness state =>
      match v.sessionId, v.userId with
      | some sid, some uid => (st, broadcastAwareness st sid uid state)
      | _, _ => (st, [])

/-- The `ws.on("close")` handler: when the closure variables are truthy,
remove the first connection entry holding this handle from the session's
set and notify the remaining connections; the user's membership record
in the registry is intentionally left intact (the `leaveSession` call is
commented out in the source). -/
def removeFirstWs : List ConnEntry → Nat → List ConnEntry
  | [], _ => []
  | c :: rest, ws => if c.ws = ws then rest else c :: removeFirstWs rest ws

/-- Processing of the socket close event. -/
def handleClose (st : ServerState) (ws : Nat) :
    ServerState × List (Nat × OutMsg) :=
  let v := getConnVars st ws
  if strTruthy v.sessionId && strTruthy v.userId then
    let sid := v.sessionId.getD ""
    let uid := v.userId.getD ""
    let st₁ : ServerState :=
      match mapGet st.connections sid with
      | none => st
      | some conns =>
          { st with connections := mapSet st.connections sid (removeFirstWs conns ws) }
    (st₁, broadcastToSession st₁ sid (.userDisconnected uid) none)
  else (st, [])

/-! ## Derived observations and trace semantics -/

/-- Number of users of a session whose role is `"owner"`. -/
def ownerCount (s : Session) : Nat :=
  (s.users.filter (fun p => p.2.role = "owner")).length

/-- Owner count of the session stored under an id, if any. -/
def sessionOwnerCountAt (st : RegistryState) (sessionId : String) :
    Option Nat :=
  (mapGet st.sessions sessionId).map ownerCount

/-- Number of users of the session stored under an id, if any. -/
def sessionUserCountAt (st : RegistryState) (sessionId : String) :
    Option Nat :=
  (mapGet st.sessions sessionId).map (fun s => s.users.length)

/-- Invite code of the session stored under an id, if any. -/
def inviteCodeAt (st : RegistryState) (sessionId : String) :
    Option String :=
  (mapGet st.sessions sessionId).map Session.inviteCode

/-- Role granted by a join result, if it succeeded. -/
def joinGrantedRole : JoinResult → Option String
  | .error _ => none
  | .ok _ _ role _ => some role

/-- Whether a join result succeeded. -/
def isJoinOk : JoinResult → Bool
  | .error _ => false
  | .ok _ _ _ _ => true

/-- Whether a role-update result is an error. -/
def isRoleErr : RoleUpdateResult → Bool
  | .error _ => true
  | .success _ => false

/-- Role currently stored for a user of a session, if any. -/
def userRoleAt (st : RegistryState) (sessionId userId : String) :
    Option String :=
  (getUser st sessionId userId).map UserRec.role

/-- One mutating call into sessionManager.js, with its nondeterministic
fresh inputs chosen arbitrarily. -/
inductive RegStep : RegistryState → RegistryState → Prop
  | create (st : RegistryState) (ownerName : Option String)
      (sessionId ownerId inviteCode color : String) (now : Nat) :
      RegStep st (createSession st ownerName sessionId ownerId inviteCode color now).1
  | join (st : RegistryState) (sessionId : String) (userName : Option String)
      (role : String) (inviteCode : Option String) (userId color : String)
      (now : Nat) :
      RegStep st (joinSession st sessionId userName role inviteCode userId color now).1
  | leave (st : RegistryState) (sessionId userId : String) :
      RegStep st (leaveSession st sessionId userId).1
  | updateRole (st : RegistryState) (sessionId targetUserId newRole requesterId : String) :
      RegStep st (updateUserRole st sessionId targetUserId newRole requesterId).1

/-- Registry states reachable from server start through the mutating
operations. -/
inductive ReachableReg : RegistryState → Prop
  | init : ReachableReg initialRegistry
  | step {s t : RegistryState} : ReachableReg s → RegStep s t → ReachableReg t

/-- Number of connection entries holding a given handle in one
session's set. -/
def countWs (conns : List ConnEntry) (ws : Nat) : Nat :=
  (conns.filter (fun c => c.ws = ws)).length

/-- Total number of connection entries holding a given handle across
all sessions' sets. -/
def entryCount (st : ServerState) (ws : Nat) : Nat :=
  (st.connections.map (fun p => countWs p.2 ws)).sum

/-- Whether a handle appears in the connection set of a session. -/
def wsInSession (st : ServerState) (sessionId : String) (ws : Nat) : Bool :=
  match mapGet st.connections sessionId with
  | none => false
  | some conns => conns.any (fun c => c.ws = ws)

/-- Number of frames of a send sequence delivered to a handle. -/
def sendsTo (outs : List (Nat × OutMsg)) (ws : Nat) : Nat :=
  (outs.filter (fun p => p.1 = ws)).length

/-- One transport-level event the relay reacts to. -/
inductive SEvent
  | msg (ws : Nat) (m : ClientMsg)
  | close (ws : Nat)
  deriving Repr, DecidableEq

/-- State after one event (the sends are discarded). -/
def stepEvent (st : ServerState) : SEvent → ServerState
  | .msg ws m => (handleMessage st ws m).1
  | .close ws => (handleClose st ws).1

/-- State after a sequence of events. -/
def runEvents (st : ServerState) : List SEvent → ServerState
  | [] => st
  | ev :: rest => runEvents (stepEvent st ev) rest

/-- Number of join messages a handle sends in an event sequence. -/
def joinCount (evs : List SEvent) (ws : Nat) : Nat :=
  (evs.filter (fun e =>
    match e with
    | .msg w (.join _ _) => w = ws
    | _ => false)).length

/-- Effect of a sessionManager leaveSession call on the whole server
state: the registry module mutates only its own maps, and nothing in
index.js ever deletes a `docs` entry (its only leaveSession call sits in
a comment), so the docs map is untouched. -/
def serverLeaveSession (st : ServerState) (sessionId userId : String) :
    ServerState × Bool :=
  let r := leaveSession st.registry sessionId userId
  ({ st with registry := r.1 }, r.2)

/-! ## Concrete example states -/

/-- Placeholder session used as a lookup default in closed statements. -/
def noSession : Session :=
  { id := "", name := "", ownerId := "", inviteCode := "", createdAt := 0,
    users := [] }

/-- Registry after Alice creates session S with invite code K3F9QX. -/
def exReg1 : RegistryState :=
  (createSession initialRegistry (some "Alice") "S" "alice" "K3F9QX" "#FF6B6B" 0).1

/-- exReg1 after Bob joins S as a viewer with the correct invite code. -/
def exReg2 : RegistryState :=
  (joinSession exReg1 "S" (some "Bob") "viewer" (some "K3F9QX") "bob" "#4ECDC4" 1).1

/-- exReg2 after the owner Alice leaves S, with Bob still present. -/
def exReg3 : RegistryState := (leaveSession exReg2 "S" "alice").1

/-- Registry after one createSession with invite code ZZZZZZ. -/
def exDupA : RegistryState :=
  (createSession initialRegistry (some "Alice") "A" "a1" "ZZZZZZ" "#FF6B6B" 0).1

/-- exDupA after a second createSession drawing the same random code. -/
def exDupB : RegistryState :=
  (createSession exDupA (some "Carol") "B" "b1" "ZZZZZZ" "#4ECDC4" 1).1

/-- Server state over exReg1 whose docs map holds one document for S. -/
def exSrv1 : ServerState :=
  { registry := exReg1, docs := [("S", [[1, 2]])], connections := [],
    connVars := [], readyState := [] }

/-- Server state over exReg2: sockets 1 (owner Alice) and 2 (viewer
Bob) are joined to session S with open transports. -/
def exSrvViewer : ServerState :=
  { registry := exReg2,
    docs := [],
    connections := [("S", [{ ws := 1, userId := "alice" },
                           { ws := 2, userId := "bob" }])],
    connVars := [(1, { sessionId := some "S", userId := some "alice" }),
                 (2, { sessionId := some "S", userId := some "bob" })],
    readyState := [(1, 1), (2, 1)] }

/-- Registry with two sessions A (users a1, a2) and B (user b1). -/
def exRegC6 : RegistryState :=
  (joinSession
    (createSession
      (createSession initialRegistry (some "Ann") "A" "a1" "CODEA" "#FF6B6B" 0).1
      (some "Ben") "B" "b1" "CODEB" "#4ECDC4" 1).1
    "A" (some "Ada") "editor" none "a2" "#45B7D1" 2).1

/-- Fresh server over exRegC6 with two open sockets and no connections
yet. -/
def exSrvC6 : ServerState :=
  { registry := exRegC6, docs := [], connections := [], connVars := [],
    readyState := [(1, 1), (2, 1)] }

/-- Socket 1 joins A, then B, then A again; socket 2 joins A. -/
def c6Trace : List SEvent :=
  [.msg 1 (.join "A" "a1"), .msg 1 (.join "B" "b1"), .msg 1 (.join "A" "a1"),
   .msg 2 (.join "A" "a2")]

/-- Server state after processing c6Trace. -/
def stC6 : ServerState := runEvents exSrvC6 c6Trace

/-! ## Map lemmas -/

theorem mapGet_mapSet_self {κ α : Type} [DecidableEq κ]
    (m : List (κ × α)) (k : κ) (v : α) :
    mapGet (mapSet m k v) k = some v := by
  induction m with
  | nil => simp [mapSet, mapGet]
  | cons hd tl ih =>
      obtain ⟨a, b⟩ := hd
      by_cases h : a = k
      · subst h; simp [mapSet, mapGet]
      · simp [mapSet, mapGet, h, ih]

theorem mapGet_mapSet_ne {κ α : Type} [DecidableEq κ]
    (m : List (κ × α)) (k key : κ) (v : α) (h : key ≠ k) :
    mapGet (mapSet m k v) key = mapGet m key := by
  induction m with
  | nil => simp [mapSet, mapGet, Ne.symm h]
  | cons hd tl ih =>
      obtain ⟨a, b⟩ := hd
      by_cases hak : a = k
      · subst hak
        have : a ≠ key := fun hc => h (hc ▸ rfl)
        simp [mapSet, mapGet, this]
      · simp [mapSet, mapGet, hak, ih]

theorem mapGet_mapDelete_self {κ α : Type} [DecidableEq κ]
    (m : List (κ × α)) (k : κ) :
    mapGet (mapDelete m k) k = none := by
  induction m with
  | nil => simp [mapDelete, mapGet]
  | cons hd tl ih =>
      obtain ⟨a, b⟩ := hd
      by_cases h : a = k
      · simpa [mapDelete, h] using ih
      · simpa [mapDelete, mapGet, h] using ih

theorem mapGet_mapDelete_ne {κ α : Type} [DecidableEq κ]
    (m : List (κ × α)) (k key : κ) (h : key ≠ k) :
    mapGet (mapDelete m k) key = mapGet m key := by
  induction m with
  | nil => simp [mapDelete, mapGet]
  | cons hd tl ih =>
      obtain ⟨a, b⟩ := hd
      by_cases hak : a = k
      · subst hak
        have hkey : a ≠ key := fun hc => h (hc ▸ rfl)
        simpa [mapDelete, mapGet, hkey] using ih
      · simp [mapDelete, mapGet, hak, ih]

/-! ## Owner-count lemmas -/

theorem owners_mapSet_le (m : List (String × UserRec)) (k : String)
    (v : UserRec) (h : ¬ v.role = "owner") :
    ((mapSet m k v).filter (fun p => p.2.role = "owner")).length
      ≤ (m.filter (fun p => p.2.role = "owner")).length := by
  induction m with
  | nil => simp [mapSet, List.filter_cons, h]
  | cons hd tl ih =>
      obtain ⟨a, b⟩ := hd
      by_cases hak : a = k
      · subst hak
        simp only [mapSet, if_pos rfl, List.filter_cons]
        by_cases hb : b.role = "owner" <;> simp [h, hb]
      · simp only [mapSet, if_neg hak, List.filter_cons]
        by_cases hb : b.role = "owner" <;> simp [hb] <;> try omega

theorem owners_delete_le (m : List (String × UserRec)) (k : String) :
    ((mapDelete m k).filter (fun p => p.2.role = "owner")).length
      ≤ (m.filter (fun p => p.2.role = "owner")).length := by
  induction m with
  | nil => simp [mapDelete]
  | cons hd tl ih =>
      obtain ⟨a, b⟩ := hd
      by_cases hak : a = k
      · subst hak
        simp only [mapDelete, if_pos rfl, List.filter_cons]
        by_cases hb : b.role = "owner" <;> simp [hb] <;> try omega
      · simp only [mapDelete, if_neg hak, List.filter_cons]
        by_cases hb : b.role = "owner" <;> simp [hb] <;> try omega

/-! ## The owner invariant -/

/-- Every stored session has at most one user with role `"owner"`. -/
def UniqueOwnerInv (st : RegistryState) : Prop :=
  ∀ sid s, mapGet st.sessions sid = some s → ownerCount s ≤ 1

theorem ownerCount_users (s : Session) :
    ownerCount s = (s.users.filter (fun p => p.2.role = "owner")).length := rfl

theorem ownerCount_set_le (session : Session) (k : String) (v : UserRec)
    (h : ¬ v.role = "owner") :
    ownerCount { session with users := mapSet session.users k v }
      ≤ ownerCount session :=
  owners_mapSet_le session.users k v h

theorem ownerCount_delete_le (session : Session) (k : String) :
    ownerCount { session with users := mapDelete session.users k }
      ≤ ownerCount session :=
  owners_delete_le session.users k

theorem inv_createSession (st : RegistryState) (ownerName : Option String)
    (sessionId ownerId inviteCode color : String) (now : Nat)
    (h : UniqueOwnerInv st) :
    UniqueOwnerInv
      (createSession st ownerName sessionId ownerId inviteCode color now).1 := by
  intro sid s hs
  simp only [createSession] at hs
  by_cases hss : sid = sessionId
  · subst hss
    rw [mapGet_mapSet_self] at hs
    cases hs
    exact Nat.le_of_eq rfl
  · rw [mapGet_mapSet_ne _ _ _ _ hss] at hs
    exact h sid s hs

theorem validRole_ne_owner (role : String) :
    ¬ (if role = "viewer" then "viewer" else "editor") = "owner" := by
  by_cases h : role = "viewer" <;> simp [h]

theorem inv_joinSession (st : RegistryState) (sessionId : String)
    (userName : Option String) (role : String) (inviteCode : Option String)
    (userId color : String) (now : Nat) (h : UniqueOwnerInv st) :
    UniqueOwnerInv
      (joinSession st sessionId userName role inviteCode userId color now).1 := by
  intro sid s hs
  unfold joinSession at hs
  cases hks : mapGet st.sessions sessionId with
  | none => rw [hks] at hs; exact h sid s hs
  | some session =>
      rw [hks] at hs
      dsimp only at hs
      split at hs
      · exact h sid s hs
      · dsimp only at hs
        by_cases hss : sid = sessionId
        · subst hss
          rw [mapGet_mapSet_self] at hs
          cases hs
          exact le_trans
            (ownerCount_set_le session userId _ (validRole_ne_owner role))
            (h sid session hks)
        · rw [mapGet_mapSet_ne _ _ _ _ hss] at hs
          exact h sid s hs

theorem inv_leaveSession (st : RegistryState) (sessionId userId : String)
    (h : UniqueOwnerInv st) :
    UniqueOwnerInv (leaveSession st sessionId userId).1 := by
  intro sid s hs
  unfold leaveSession at hs
  cases hks : mapGet st.sessions sessionId with
  | none => rw [hks] at hs; exact h sid s hs
  | some session =>
      rw [hks] at hs
      dsimp only at hs
      split at hs
      · dsimp only at hs
        by_cases hss : sid = sessionId
        · subst hss; rw [mapGet_mapDelete_self] at hs; cases hs
        · rw [mapGet_mapDelete_ne _ _ _ hss] at hs
          exact h sid s hs
      · dsimp only at hs
        by_cases hss : sid = sessionId
        · subst hss
          rw [mapGet_mapSet_self] at hs
          cases hs
          exact le_trans (ownerCount_delete_le session userId)
            (h sid session hks)
        · rw [mapGet_mapSet_ne _ _ _ _ hss] at hs
          exact h sid s hs

theorem inv_updateUserRole (st : RegistryState)
    (sessionId targetUserId newRole requesterId : String)
    (h : UniqueOwnerInv st) :
    UniqueOwnerInv (updateUserRole st sessionId targetUserId newRole requesterId).1 := by
  intro sid s hs
  unfold updateUserRole at hs
  cases hks : mapGet st.sessions sessionId with
  | none => rw [hks] at hs; exact h sid s hs
  | some session =>
      rw [hks] at hs
      dsimp only at hs
      cases hreq : mapGet session.users requesterId with
      | none => rw [hreq] at hs; exact h sid s hs
      | some requester =>
          rw [hreq] at hs
          dsimp only at hs
          split at hs
          · exact h sid s hs
          · cases htg : mapGet session.users targetUserId with
            | none => rw [htg] at hs; exact h sid s hs
            | some target =>
                rw [htg] at hs
                dsimp only at hs
                split at hs
                · exact h sid s hs
                · dsimp only at hs
                  by_cases hss : sid = sessionId
                  · subst hss
                    rw [mapGet_mapSet_self] at hs
                    cases hs
                    exact le_trans
                      (ownerCount_set_le session targetUserId _
                        (validRole_ne_owner newRole))
                      (h sid session hks)
                  · rw [mapGet_mapSet_ne _ _ _ _ hss] at hs
                    exact h sid s hs

theorem reachable_uniqueOwner (st : RegistryState) (h : ReachableReg st) :
    UniqueOwnerInv st := by
  induction h with
  | init => intro sid s hs; cases hs
  | step _ hstep ih =>
      cases hstep with
      | create ownerName sid oid code color now =>
          exact inv_createSession _ ownerName sid oid code color now ih
      | join sid userName role inviteCode userId color now =>
          exact inv_joinSession _ sid userName role inviteCode userId color now ih
      | leave sid uid => exact inv_leaveSession _ sid uid ih
      | updateRole sid target newRole req =>
          exact inv_updateUserRole _ sid target newRole req ih

/-! ## Claim C1 -/

/-- C1 (amended): every reachable registry state keeps at most one
`"owner"` per session, and createSession stores its session with exactly
one owner; the count is not always exactly one, because leaveSession can
remove the owner while other users remain (see the counterexample). -/
theorem c1_owner_invariant :
    (∀ st : RegistryState, ReachableReg st → UniqueOwnerInv st)
    ∧ (∀ (st : RegistryState) (ownerName : Option String)
        (sid oid code color : String) (now : Nat),
        sessionOwnerCountAt
          (createSession st ownerName sid oid code color now).1 sid = some 1) := by
  constructor
  · exact reachable_uniqueOwner
  · intro st ownerName sid oid code color now
    simp only [sessionOwnerCountAt, createSession]
    rw [mapGet_mapSet_self]
    rfl

/-- Witness for C1: the invariant applied to the concrete reachable
state exReg2 and its session S. -/
theorem c1_owner_invariant_witness :
    ownerCount ((mapGet exReg2.sessions "S").getD noSession) ≤ 1 := by
  have hreach : ReachableReg exReg2 :=
    ReachableReg.step
      (ReachableReg.step ReachableReg.init
        (RegStep.create initialRegistry (some "Alice") "S" "alice" "K3F9QX"
          "#FF6B6B" 0))
      (RegStep.join exReg1 "S" (some "Bob") "viewer" (some "K3F9QX") "bob"
        "#4ECDC4" 1)
  exact c1_owner_invariant.1 exReg2 hreach "S" _ rfl

/-- C1 counterexample: after leaveSession removes the owner Alice from
session S while Bob remains, the session still exists but holds zero
owners, refuting "exactly one user whose role is owner at all times". -/
theorem c1_counterexample :
    sessionOwnerCountAt exReg3 "S" = some 0
    ∧ sessionUserCountAt exReg3 "S" = some 1 := ⟨rfl, rfl⟩

/-! ## Claim C2 -/

/-- C2 counterexample: joining with requestedRole "owner" (invite code
matching) grants "editor", not "viewer" as the claim states. -/
theorem c2_counterexample :
    joinGrantedRole
      (joinSession exReg1 "S" (some "Mallory") "owner" (some "K3F9QX") "m"
        "#45B7D1" 2).2 = some "editor"
    ∧ ("editor" : String) ≠ "viewer" := ⟨rfl, by decide⟩

/-- C2 (amended): on an existing session with a matching or absent
invite code, the granted role is "viewer" exactly when the requested
role is the string "viewer" and "editor" for every other value
(including "owner" and the omitted default "editor"); no join ever
grants "owner". -/
theorem c2_role_clamp :
    ∀ (st : RegistryState) (sid : String) (session : Session)
      (userName : Option String) (role : String) (inviteCode : Option String)
      (userId color : String) (now : Nat),
      mapGet st.sessions sid = some session →
      (inviteCode = none ∨ inviteCode = some session.inviteCode) →
      joinGrantedRole (joinSession st sid userName role inviteCode userId color now).2
        = some (if role = "viewer" then "viewer" else "editor")
      ∧ joinGrantedRole (joinSession st sid userName role inviteCode userId color now).2
        ≠ some "owner" := by
  intro st sid session userName role inviteCode userId color now hks hinv
  have key : joinGrantedRole
      (joinSession st sid userName role inviteCode userId color now).2
      = some (if role = "viewer" then "viewer" else "editor") := by
    rcases hinv with h | h <;> subst h <;>
      simp [joinSession, hks, joinGrantedRole]
  refine ⟨key, ?_⟩
  rw [key]
  intro hc
  exact validRole_ne_owner role (Option.some.inj hc)

/-- Witness for C2: joining with requestedRole "owner" and no invite
code on the concrete session S yields "editor". -/
theorem c2_role_clamp_witness :
    joinGrantedRole
      (joinSession exReg1 "S" (some "Eve") "owner" none "e" "#96CEB4" 3).2
      = some "editor" := by
  have h := c2_role_clamp exReg1 "S" ((mapGet exReg1.sessions "S").getD noSession)
    (some "Eve") "owner" none "e" "#96CEB4" 3 rfl (Or.inl rfl)
  exact h.1.trans rfl

/-! ## Claim C3 -/

/-- C3 counterexample: createSession performs no collision check, so two
distinct live sessions can end up with the same invite code. -/
theorem c3_counterexample :
    inviteCodeAt exDupB "A" = some "ZZZZZZ"
    ∧ inviteCodeAt exDupB "B" = some "ZZZZZZ"
    ∧ ("A" : String) ≠ "B" := ⟨rfl, rfl, by decide⟩

/-- C3 (amended): createSession always succeeds, storing the session
under the fresh id with the generated invite code and returning role
"owner"; the code is taken from the random generator without any
collision check against live sessions, so uniqueness is not
guaranteed. -/
theorem c3_createSession_total :
    ∀ (st : RegistryState) (ownerName : Option String)
      (sid oid code color : String) (now : Nat),
      inviteCodeAt (createSession st ownerName sid oid code color now).1 sid
        = some code
      ∧ (createSession st ownerName sid oid code color now).2.role = "owner"
      ∧ (createSession st ownerName sid oid code color now).2.inviteCode = code := by
  intro st ownerName sid oid code color now
  refine ⟨?_, rfl, rfl⟩
  simp only [inviteCodeAt, createSession]
  rw [mapGet_mapSet_self]
  rfl

/-! ## Claim C7 -/

/-- C7 counterexample: the empty string is a supplied invite code that
differs from the session's code K3F9QX, yet the join succeeds and
appends a user, because the source only compares truthy codes. -/
theorem c7_counterexample :
    isJoinOk
      (joinSession exReg1 "S" (some "Eve") "editor" (some "") "e2" "#FFEAA7" 4).2
      = true
    ∧ ("" : String) ≠ "K3F9QX"
    ∧ inviteCodeAt exReg1 "S" = some "K3F9QX"
    ∧ sessionUserCountAt
        (joinSession exReg1 "S" (some "Eve") "editor" (some "") "e2" "#FFEAA7" 4).1
        "S" = some 2 :=
  ⟨rfl, by decide, rfl, rfl⟩

/-- C7 (amended): for every existing session and every supplied
NON-EMPTY invite code that differs from the session's code, joinSession
returns the Invalid invite code error and leaves the registry (hence the
session's user mapping) unchanged; a supplied empty string counts as
absent. -/
theorem c7_invalid_invite :
    ∀ (st : RegistryState) (sid : String) (session : Session)
      (userName : Option String) (role c userId color : String) (now : Nat),
      mapGet st.sessions sid = some session →
      c ≠ "" → session.inviteCode ≠ c →
      joinSession st sid userName role (some c) userId color now
        = (st, .error "Invalid invite code") := by
  intro st sid session userName role c userId color now hks hne hcode
  simp [joinSession, hks, hne, hcode]

/-- Witness for C7: a wrong non-empty code on the concrete session S is
rejected and the registry is unchanged. -/
theorem c7_invalid_invite_witness :
    joinSession exReg1 "S" (some "Eve") "editor" (some "WRONG") "e" "#DDA0DD" 5
      = (exReg1, .error "Invalid invite code") := by
  exact c7_invalid_invite exReg1 "S" ((mapGet exReg1.sessions "S").getD noSession)
    (some "Eve") "editor" "WRONG" "e" "#DDA0DD" 5 rfl (by decide) (by decide)

/-! ## Claim C10 -/

/-- C10: on every existing session, a join with the invite code omitted
or equal to the falsy empty string skips the code comparison entirely
and succeeds, appending a new user record: the sessionId alone suffices
to join. -/
theorem c10_falsy_invite :
    ∀ (st : RegistryState) (sid : String) (session : Session)
      (userName : Option String) (role userId color : String) (now : Nat),
      mapGet st.sessions sid = some session →
      joinSession st sid userName role (some "") userId color now
        = joinSession st sid userName role none userId color now
      ∧ isJoinOk (joinSession st sid userName role none userId color now).2 = true
      ∧ (getUser (joinSession st sid userName role none userId color now).1 sid userId).isSome
          = true := by
  intro st sid session userName role userId color now hks
  refine ⟨?_, ?_, ?_⟩
  · simp [joinSession, hks]
  · simp [joinSession, hks, isJoinOk]
  · simp [joinSession, hks, getUser, mapGet_mapSet_self]

/-- Witness for C10: Zoe joins the concrete session S with no invite
code and the join succeeds. -/
theorem c10_falsy_invite_witness :
    isJoinOk (joinSession exReg1 "S" (some "Zoe") "editor" none "z" "#98D8C8" 6).2
      = true := by
  exact (c10_falsy_invite exReg1 "S" ((mapGet exReg1.sessions "S").getD noSession)
    (some "Zoe") "editor" "z" "#98D8C8" 6 rfl).2.1

/-! ## Claim C8 -/

/-- C8: when leaveSession removes the last remaining user of a session,
the session record is deleted so getSession returns none, while the
per-session docs map of the server is untouched. -/
theorem c8_reclaim :
    ∀ (st : ServerState) (sid userId : String) (session : Session) (u : UserRec),
      mapGet st.registry.sessions sid = some session →
      session.users = [(userId, u)] →
      getSession (serverLeaveSession st sid userId).1.registry sid = none
      ∧ (serverLeaveSession st sid userId).1.docs = st.docs := by
  intro st sid userId session u hks husers
  refine ⟨?_, rfl⟩
  simp [serverLeaveSession, leaveSession, hks, husers, mapDelete, getSession,
    mapGet_mapDelete_self]

/-- Witness for C8: Alice, sole user of S in exSrv1, leaves; S is gone
from the registry and the docs entry for S survives unchanged. -/
theorem c8_reclaim_witness :
    getSession (serverLeaveSession exSrv1 "S" "alice").1.registry "S" = none
    ∧ (serverLeaveSession exSrv1 "S" "alice").1.docs = exSrv1.docs := by
  exact c8_reclaim exSrv1 "S" "alice"
    ((mapGet exSrv1.registry.sessions "S").getD noSession) _ rfl rfl

/-! ## Claim C9 -/

/-- C9: updateUserRole fails with an error and leaves the state
unchanged whenever the requester is not the session's current owner or
the target already has role owner; the owner targeting themselves is
rejected as Cannot change owner role; on success the target's stored
role becomes viewer when newRole is exactly "viewer" and editor
otherwise, never owner. -/
theorem c9_updateUserRole_spec :
    ∀ (st : RegistryState) (sid targetUserId newRole requesterId : String),
      (∀ session, mapGet st.sessions sid = some session →
        ((∀ r, mapGet session.users requesterId = some r → r.role ≠ "owner")
          ∨ (∃ t, mapGet session.users targetUserId = some t ∧ t.role = "owner")) →
        isRoleErr (updateUserRole st sid targetUserId newRole requesterId).2 = true
        ∧ (updateUserRole st sid targetUserId newRole requesterId).1 = st)
      ∧ (∀ session r, mapGet st.sessions sid = some session →
          mapGet session.users requesterId = some r → r.role = "owner" →
          targetUserId = requesterId →
          (updateUserRole st sid targetUserId newRole requesterId).2
            = .error "Cannot change owner role")
      ∧ (∀ u, (updateUserRole st sid targetUserId newRole requesterId).2
            = .success u →
          u.role = (if newRole = "viewer" then "viewer" else "editor")
          ∧ u.role ≠ "owner"
          ∧ userRoleAt (updateUserRole st sid targetUserId newRole requesterId).1
              sid targetUserId = some u.role) := by
  intro st sid targetUserId newRole requesterId
  refine ⟨?_, ?_, ?_⟩
  · intro session hks hcond
    cases hreq : mapGet session.users requesterId with
    | none => simp [updateUserRole, hks, hreq, isRoleErr]
    | some r =>
        by_cases hro : r.role = "owner"
        · cases htg : mapGet session.users targetUserId with
          | none => simp [updateUserRole, hks, hreq, hro, htg, isRoleErr]
          | some t =>
              by_cases hto : t.role = "owner"
              · simp [updateUserRole, hks, hreq, hro, htg, hto, isRoleErr]
              · exfalso
                rcases hcond with hc | ⟨t', ht', hto'⟩
                · exact hc r hreq hro
                · rw [htg] at ht'
                  cases ht'
                  exact hto hto'
        · simp [updateUserRole, hks, hreq, hro, isRoleErr]
  · intro session r hks hreq hro hte
    subst hte
    simp [updateUserRole, hks, hreq, hro]
  · intro u hsu
    cases hks : mapGet st.sessions sid with
    | none => simp [updateUserRole, hks] at hsu
    | some session =>
        cases hreq : mapGet session.users requesterId with
        | none => simp [updateUserRole, hks, hreq] at hsu
        | some r =>
            by_cases hro : r.role = "owner"
            · cases htg : mapGet session.users targetUserId with
              | none => simp [updateUserRole, hks, hreq, hro, htg] at hsu
              | some t =>
                  by_cases hto : t.role = "owner"
                  · simp [updateUserRole, hks, hreq, hro, htg, hto] at hsu
                  · simp only [updateUserRole, hks, hreq, hro, htg, hto] at hsu
                    simp at hsu
                    subst hsu
                    refine ⟨rfl, validRole_ne_owner newRole, ?_⟩
                    simp [userRoleAt, getUser, updateUserRole, hks, hreq, hro,
                      htg, hto, mapGet_mapSet_self]
            · simp [updateUserRole, hks, hreq, hro] at hsu

/-- Witness for C9: the owner Alice targets herself in the concrete
session S and is rejected with Cannot change owner role. -/
theorem c9_updateUserRole_spec_witness :
    (updateUserRole exReg1 "S" "alice" "viewer" "alice").2
      = .error "Cannot change owner role" := by
  exact (c9_updateUserRole_spec exReg1 "S" "alice" "viewer" "alice").2.1
    ((mapGet exReg1.sessions "S").getD noSession) _ rfl rfl rfl rfl

/-! ## Claim C4 -/

/-- C4: a sync message from a connection whose user has role viewer
changes nothing (in particular no update is merged into any document)
and produces exactly one send: a structured error frame back to the
sender; no other connection receives anything. -/
theorem c4_viewer_sync_denied :
    ∀ (st : ServerState) (ws : Nat) (sid uid : String) (u : UserRec)
      (update : List Nat),
      getConnVars st ws = { sessionId := some sid, userId := some uid } →
      getUser st.registry sid uid = some u →
      u.role = "viewer" →
      handleMessage st ws (.sync update)
        = (st, [(ws, .errorMsg "Permission denied: viewers cannot edit")]) := by
  intro st ws sid uid u update hv hu hrole
  have hce : canEdit st.registry sid uid = false := by
    simp [canEdit, hu, hrole]
  simp [handleMessage, hv, hce]

/-- Witness for C4: viewer Bob's sync on the concrete two-connection
server is rejected with only the error reply and an unchanged state. -/
theorem c4_viewer_sync_denied_witness :
    handleMessage exSrvViewer 2 (.sync [7])
      = (exSrvViewer,
         [(2, .errorMsg "Permission denied: viewers cannot edit")]) := by
  exact c4_viewer_sync_denied exSrvViewer 2 "S" "bob" _ [7] rfl rfl rfl

/-! ## Claim C5 -/

/-- C5 counterexample: awareness broadcasting passes no exclusion, so
the sending socket 1 receives its own awareness frame back. -/
theorem c5_counterexample :
    (handleMessage exSrvViewer 1 (.awareness "cursor")).2
      = [(1, .awarenessMsg "alice" "cursor"), (2, .awarenessMsg "alice" "cursor")]
    ∧ sendsTo (handleMessage exSrvViewer 1 (.awareness "cursor")).2 1 = 1 :=
  ⟨rfl, rfl⟩

/-- C5 (amended): relaying an awareness message performs no permission
check and no storage: the server state is returned unchanged and the
(userId, state) pair is fanned to every connection entry of the session
whose transport is open, with no sender exclusion (the sender receives
its own awareness frame whenever its entry is registered and open). -/
theorem c5_awareness_fanout :
    ∀ (st : ServerState) (ws : Nat) (sid uid : String) (state : String),
      getConnVars st ws = { sessionId := some sid, userId := some uid } →
      handleMessage st ws (.awareness state)
        = (st, ((mapGet st.connections sid).getD []).filter
              (fun c => wsReady st c.ws = 1) |>.map
              (fun c => (c.ws, OutMsg.awarenessMsg uid state))) := by
  intro st ws sid uid state hv
  simp only [handleMessage, hv]
  cases hc : mapGet st.connections sid with
  | none => simp [broadcastAwareness, broadcastToSession, hc]
  | some conns => simp [broadcastAwareness, broadcastToSession, hc]

/-- Witness for C5: socket 2's awareness frame on the concrete server is
fanned to both open connections, socket 2 itself included. -/
theorem c5_awareness_fanout_witness :
    (handleMessage exSrvViewer 2 (.awareness "c2")).2
      = [(1, .awarenessMsg "bob" "c2"), (2, .awarenessMsg "bob" "c2")] := by
  rw [c5_awareness_fanout exSrvViewer 2 "S" "bob" "c2" rfl]
  rfl

/-! ## Claim C6 -/

theorem countWs_cons (c : ConnEntry) (l : List ConnEntry) (ws : Nat) :
    countWs (c :: l) ws = (if c.ws = ws then 1 else 0) + countWs l ws := by
  by_cases h : c.ws = ws
  · simp [countWs, List.filter_cons, h]
    omega
  · simp [countWs, List.filter_cons, h]

theorem countWs_append (l₁ l₂ : List ConnEntry) (ws : Nat) :
    countWs (l₁ ++ l₂) ws = countWs l₁ ws + countWs l₂ ws := by
  simp [countWs, List.filter_append]

theorem countWs_removeFirstWs_le (l : List ConnEntry) (w ws : Nat) :
    countWs (removeFirstWs l w) ws ≤ countWs l ws := by
  induction l with
  | nil => exact le_refl _
  | cons c rest ih =>
      by_cases hc : c.ws = w
      · simp only [removeFirstWs, if_pos hc]
        rw [countWs_cons]
        split <;> omega
      · simp only [removeFirstWs, if_neg hc]
        rw [countWs_cons, countWs_cons]
        split <;> omega

theorem sum_countWs_mapSet_le (m : List (String × List ConnEntry)) (k : String)
    (v : List ConnEntry) (ws d : Nat)
    (hsome : ∀ old, mapGet m k = some old → countWs v ws ≤ countWs old ws + d)
    (hnone : mapGet m k = none → countWs v ws ≤ d) :
    ((mapSet m k v).map (fun p => countWs p.2 ws)).sum
      ≤ (m.map (fun p => countWs p.2 ws)).sum + d := by
  induction m with
  | nil =>
      simp only [mapSet, List.map_cons, List.map_nil, List.sum_cons,
        List.sum_nil]
      have := hnone rfl
      omega
  | cons hd tl ih =>
      obtain ⟨a, b⟩ := hd
      by_cases hak : a = k
      · subst hak
        rw [show mapSet ((a, b) :: tl) a v = (a, v) :: tl from by simp [mapSet]]
        simp only [List.map_cons, List.sum_cons]
        have h := hsome b (by simp [mapGet])
        omega
      · have hma : mapGet ((a, b) :: tl) k = mapGet tl k := by
          simp [mapGet, hak]
        simp only [mapSet, if_neg hak, List.map_cons, List.sum_cons]
        have ih' := ih (fun old ho => hsome old (by rw [hma]; exact ho))
          (fun ho => hnone (by rw [hma]; exact ho))
        omega

theorem getYDoc_connections (s : ServerState) (sid : String) :
    (getYDoc s sid).1.connections = s.connections := by
  unfold getYDoc
  split <;> rfl

theorem entryCount_congr {s t : ServerState}
    (h : s.connections = t.connections) (ws : Nat) :
    entryCount s ws = entryCount t ws := by
  simp [entryCount, h]

theorem entryCount_stepEvent_le (st : ServerState) (ev : SEvent) (ws : Nat) :
    entryCount (stepEvent st ev) ws
      ≤ entryCount st ws +
        (match ev with
         | .msg w (.join _ _) => if w = ws then 1 else 0
         | _ => 0) := by
  cases ev with
  | close w =>
      simp only [stepEvent, handleClose]
      split
      · dsimp only
        split
        · exact Nat.le_add_right _ _
        · rename_i conns heq
          have h := sum_countWs_mapSet_le st.connections
            ((getConnVars st w).sessionId.getD "")
            (removeFirstWs conns w) ws 0
            (fun old ho => by
              rw [heq] at ho
              cases ho
              simpa using countWs_removeFirstWs_le conns w ws)
            (fun ho => by rw [heq] at ho; cases ho)
          simpa using h
      · exact Nat.le_add_right _ _
  | msg w m =>
      cases m with
      | sync update =>
          simp only [stepEvent, handleMessage]
          split
          · split
            · refine le_trans
                (le_of_eq (entryCount_congr (getYDoc_connections _ _) ws)) ?_
              exact Nat.le_add_right _ _
            · exact Nat.le_add_right _ _
          · exact Nat.le_add_right _ _
      | awareness state =>
          simp only [stepEvent, handleMessage]
          split
          · exact Nat.le_add_right _ _
          · exact Nat.le_add_right _ _
      | join sessionId userId =>
          simp only [stepEvent, handleMessage]
          split
          · exact Nat.le_add_right _ _
          · refine le_trans
              (le_of_eq (entryCount_congr (getYDoc_connections _ _) ws)) ?_
            refine sum_countWs_mapSet_le st.connections sessionId _ ws _ ?_ ?_
            · intro old ho
              rw [ho]
              simp only [Option.getD_some]
              rw [countWs_append]
              have hE : countWs [{ ws := w, userId := userId }] ws
                  = if w = ws then 1 else 0 := by
                by_cases hw : w = ws <;> simp [countWs, hw]
              rw [hE]
            · intro ho
              rw [ho]
              simp only [Option.getD_none, List.nil_append]
              have hE : countWs [{ ws := w, userId := userId }] ws
                  = if w = ws then 1 else 0 := by
                by_cases hw : w = ws <;> simp [countWs, hw]
              rw [hE]

theorem joinCount_cons (ev : SEvent) (rest : List SEvent) (ws : Nat) :
    joinCount (ev :: rest) ws
      = joinCount rest ws +
        (match ev with
         | .msg w (.join _ _) => if w = ws then 1 else 0
         | _ => 0) := by
  cases ev with
  | close w => simp [joinCount, List.filter_cons]
  | msg w m =>
      cases m with
      | join a b =>
          by_cases hw : w = ws
          · simp [joinCount, List.filter_cons, hw]
          · simp [joinCount, List.filter_cons, hw]
      | sync u => simp [joinCount, List.filter_cons]
      | awareness s => simp [joinCount, List.filter_cons]

theorem entryCount_runEvents_le (evs : List SEvent) (st : ServerState)
    (ws : Nat) :
    entryCount (runEvents st evs) ws ≤ entryCount st ws + joinCount evs ws := by
  induction evs generalizing st with
  | nil => simp [runEvents, joinCount]
  | cons ev rest ih =>
      have h1 := entryCount_stepEvent_le st ev ws
      have h2 := ih (stepEvent st ev)
      have h3 := joinCount_cons ev rest ws
      simp only [runEvents]
      omega

theorem sendsTo_cons (p : Nat × OutMsg) (l : List (Nat × OutMsg)) (ws : Nat) :
    sendsTo (p :: l) ws = (if p.1 = ws then 1 else 0) + sendsTo l ws := by
  by_cases h : p.1 = ws
  · simp [sendsTo, List.filter_cons, h]
    omega
  · simp [sendsTo, List.filter_cons, h]

theorem sendsTo_map_le (conns : List ConnEntry) (q : ConnEntry → Bool)
    (m : OutMsg) (ws : Nat) :
    sendsTo ((conns.filter q).map (fun c => (c.ws, m))) ws
      ≤ countWs conns ws := by
  induction conns with
  | nil => simp [sendsTo, countWs]
  | cons c rest ih =>
      rw [countWs_cons]
      by_cases hq : q c
      · rw [List.filter_cons, if_pos hq, List.map_cons, sendsTo_cons]
        split <;> omega
      · rw [List.filter_cons, if_neg hq]
        split <;> omega

theorem countWs_mapGet_le_sum (m : List (String × List ConnEntry)) (k : String)
    (conns : List ConnEntry) (ws : Nat) (h : mapGet m k = some conns) :
    countWs conns ws ≤ (m.map (fun p => countWs p.2 ws)).sum := by
  induction m with
  | nil => cases h
  | cons hd tl ih =>
      obtain ⟨a, b⟩ := hd
      simp only [mapGet] at h
      by_cases hak : a = k
      · rw [if_pos hak] at h
        cases h
        simp only [List.map_cons, List.sum_cons]
        omega
      · rw [if_neg hak] at h
        have := ih h
        simp only [List.map_cons, List.sum_cons]
        omega

theorem sendsTo_broadcast_le (st : ServerState) (sid : String) (m : OutMsg)
    (ex : Option Nat) (ws : Nat) :
    sendsTo (broadcastToSession st sid m ex) ws ≤ entryCount st ws := by
  cases heq : mapGet st.connections sid with
  | none => simp [broadcastToSession, heq, sendsTo]
  | some conns =>
      simp only [broadcastToSession, heq]
      exact le_trans (sendsTo_map_le conns _ m ws)
        (countWs_mapGet_le_sum st.connections sid conns ws heq)

/-- C6 (amended): a join appends the handle to the target session's
connection set without removing it from any other set, so the claim
holds only for handles that send at most one join: starting from a
server whose connection sets do not mention the handle, after any event
sequence in which the handle sends at most one join message the handle
occurs in at most one entry across all sessions' sets, and every relayed
broadcast delivers at most one frame to it. A handle that sends several
joins can occur in several sets at once and receive one copy per entry
(see the counterexample). -/
theorem c6_handle_once :
    ∀ (st₀ : ServerState) (evs : List SEvent) (ws : Nat),
      entryCount st₀ ws = 0 → joinCount evs ws ≤ 1 →
      entryCount (runEvents st₀ evs) ws ≤ 1
      ∧ ∀ (sid : String) (m : OutMsg) (ex : Option Nat),
          sendsTo (broadcastToSession (runEvents st₀ evs) sid m ex) ws ≤ 1 := by
  intro st₀ evs ws h0 h1
  have hle := entryCount_runEvents_le evs st₀ ws
  constructor
  · omega
  · intro sid m ex
    have hb := sendsTo_broadcast_le (runEvents st₀ evs) sid m ex ws
    omega

/-- Witness for C6: socket 1 joins session A once on the concrete fresh
server; it then occurs in at most one entry and a sync broadcast reaches
it at most once. -/
theorem c6_handle_once_witness :
    entryCount (runEvents exSrvC6 [.msg 1 (.join "A" "a1")]) 1 ≤ 1
    ∧ sendsTo (broadcastToSession (runEvents exSrvC6 [.msg 1 (.join "A" "a1")])
        "A" (.syncMsg [1]) none) 1 ≤ 1 := by
  have h := c6_handle_once exSrvC6 [.msg 1 (.join "A" "a1")] 1 rfl (by decide)
  exact ⟨h.1, h.2 "A" (.syncMsg [1]) none⟩

/-- C6 counterexample: after socket 1 joins A, then B, then A again, it
sits in both A's and B's connection sets at once, and socket 2's
awareness broadcast in A is delivered to socket 1 twice. -/
theorem c6_counterexample :
    wsInSession stC6 "A" 1 = true
    ∧ wsInSession stC6 "B" 1 = true
    ∧ sendsTo (handleMessage stC6 2 (.awareness "c")).2 1 = 2 :=
  ⟨rfl, rfl, rfl⟩

end Circuit
